import Mathlib

/-!
Verification of the ViewState core of the carto mobile SDK
(src/all/native/graphics/ViewState.h).

The repository ships only the interface header; the member-function bodies
live in a translation unit that is not part of this source tree.  The
definitions below are therefore a shallow embedding modelled from the
header's documentation comments and from the natural-language specification
(spec.md), as noted in each doc comment.  Machine floating point is
modelled by exact rationals (ℚ); the IEEE NaN failure value of
`screenToWorld` is modelled by `Option.none` components.
-/

namespace CartoViewState

/-- A 3-component vector of exact rationals, modelling `cglib::vec3<double>`. -/
structure Vec3 where
  x : ℚ
  y : ℚ
  z : ℚ
deriving DecidableEq

instance : Add Vec3 := ⟨fun a b => ⟨a.x + b.x, a.y + b.y, a.z + b.z⟩⟩

instance : Sub Vec3 := ⟨fun a b => ⟨a.x - b.x, a.y - b.y, a.z - b.z⟩⟩

instance : SMul ℚ Vec3 := ⟨fun s a => ⟨s * a.x, s * a.y, s * a.z⟩⟩

/-- Euclidean dot product on `Vec3`. -/
def dot (a b : Vec3) : ℚ := a.x * b.x + a.y * b.y + a.z * b.z

/-- Cross product on `Vec3`. -/
def cross (a b : Vec3) : Vec3 :=
  ⟨a.y * b.z - a.z * b.y, a.z * b.x - a.x * b.z, a.x * b.y - a.y * b.x⟩

theorem add_def (a b : Vec3) : a + b = ⟨a.x + b.x, a.y + b.y, a.z + b.z⟩ := rfl

theorem sub_def (a b : Vec3) : a - b = ⟨a.x - b.x, a.y - b.y, a.z - b.z⟩ := rfl

theorem smul_def (s : ℚ) (a : Vec3) : s • a = ⟨s * a.x, s * a.y, s * a.z⟩ := rfl

theorem dot_add_left (a b c : Vec3) : dot (a + b) c = dot a c + dot b c := by
  simp [dot, add_def]; ring

theorem dot_smul_left (s : ℚ) (a b : Vec3) : dot (s • a) b = s * dot a b := by
  simp [dot, smul_def]; ring

theorem add_sub_cancel_vec (a b : Vec3) : a + b - a = b := by
  cases a; cases b; simp [add_def, sub_def]

/-- Modelled from the spec (§4.4 ScreenMapper): the data `screenToWorld` and
`worldToScreen` consume — the camera position, the orthonormal camera basis
implied by the modelview matrix (right/up/forward), the screen half extents
and the tangents of the half field-of-view angles.  The C++ member functions
read these from the matrices stored in `ViewState`; the matrix inverse path
of the missing implementation is modelled directly by the camera frame. -/
structure ScreenMapper where
  pos : Vec3
  right : Vec3
  upv : Vec3
  forward : Vec3
  halfW : ℚ
  halfH : ℚ
  tanX : ℚ
  tanY : ℚ
deriving DecidableEq

/-- Modelled from the spec (§4.4): the world-space direction of the ray cast
through pixel `p`; the vertical axis is flipped because screen-space Y grows
downward while the camera up axis grows upward. -/
def rayDir (m : ScreenMapper) (p : ℚ × ℚ) : Vec3 :=
  m.forward + ((p.1 - m.halfW) / m.halfW * m.tanX) • m.right
    + ((m.halfH - p.2) / m.halfH * m.tanY) • m.upv

/-- Modelled from the spec (§2, §6): the externally owned projection surface,
reduced to its ray-intersection interface.  Given the height offset, a ray
origin and a ray direction it returns the parameter `t` of the hit point
along the ray, or `none` when the ray misses the surface. -/
def Surface : Type := ℚ → Vec3 → Vec3 → Option ℚ

/-- A double with NaN: `none` models an IEEE NaN component. -/
def EDouble : Type := Option ℚ

/-- Modelled from the spec (§4.4) and the header doc of `screenToWorld`
(ViewState.h lines 335-342): unprojects the pixel through the camera frame
to a world ray, intersects the ray with the projection surface at the given
height, and returns the hit point; if the ray does not hit the surface, all
three components of the result are NaN (modelled as `none`). -/
def screenToWorld (m : ScreenMapper) (surf : Surface) (p : ℚ × ℚ) (height : ℚ) :
    EDouble × EDouble × EDouble :=
  match surf height m.pos (rayDir m p) with
  | none => (none, none, none)
  | some t =>
    let w := m.pos + t • rayDir m p
    (some w.x, some w.y, some w.z)

/-- Modelled from the spec (§4.4) and the header doc of `worldToScreen`
(ViewState.h lines 343-349): expresses the world point in the camera frame,
performs the perspective division, and maps normalized device coordinates to
pixels with the vertical flip.  No clipping to screen bounds is performed. -/
def worldToScreen (m : ScreenMapper) (w : Vec3) : ℚ × ℚ :=
  let v := w - m.pos
  let depth := dot v m.forward
  (m.halfW + m.halfW * dot v m.right / (depth * m.tanX),
   m.halfH - m.halfH * dot v m.upv / (depth * m.tanY))

/-- A concrete planar projection surface at world height `h`: the plane
`z = h`, hit only from the front (`t > 0`). -/
def planeSurface : Surface := fun h o d =>
  if d.z = 0 then none
  else if 0 < (h - o.z) / d.z then some ((h - o.z) / d.z) else none

/-- The concrete camera of the spec's test scenario (§8): camera at
`(0,0,5)` looking down the negative z axis, axis-aligned basis, 512×512
screen, 90° field of view. -/
def sampleMapper : ScreenMapper :=
  ⟨⟨0, 0, 5⟩, ⟨1, 0, 0⟩, ⟨0, 1, 0⟩, ⟨0, 0, -1⟩, 256, 256, 1, 1⟩

/-- A camera at height 5 looking horizontally along the y axis: rays through
the upper half of the screen point above the horizon and miss the `z = 0`
plane. -/
def horizonMapper : ScreenMapper :=
  ⟨⟨0, 0, 5⟩, ⟨1, 0, 0⟩, ⟨0, 0, 1⟩, ⟨0, 1, 0⟩, 256, 256, 1, 1⟩

theorem dot_comm (a b : Vec3) : dot a b = dot b a := by
  simp [dot]; ring

/-- C1: for every pixel position `p` whose unprojected ray hits the
projection surface (at parameter `t > 0`, i.e. in front of the camera),
`screenToWorld` returns the hit point and `worldToScreen` maps that point
back exactly to `p` (the round-trip law; "approximately" in the float code
becomes exact over ℚ); the camera frame is orthonormal as the look-at
construction guarantees. -/
theorem screenToWorld_worldToScreen_roundtrip
    (m : ScreenMapper) (surf : Surface) (p : ℚ × ℚ) (height t : ℚ)
    (hrr : dot m.right m.right = 1) (huu : dot m.upv m.upv = 1)
    (hff : dot m.forward m.forward = 1)
    (hfr : dot m.forward m.right = 0) (hfu : dot m.forward m.upv = 0)
    (hru : dot m.right m.upv = 0)
    (hW : m.halfW ≠ 0) (hH : m.halfH ≠ 0) (hX : m.tanX ≠ 0) (hY : m.tanY ≠ 0)
    (ht : surf height m.pos (rayDir m p) = some t) (htpos : 0 < t) :
    screenToWorld m surf p height =
      (some (m.pos + t • rayDir m p).x, some (m.pos + t • rayDir m p).y,
       some (m.pos + t • rayDir m p).z) ∧
    worldToScreen m (m.pos + t • rayDir m p) = p := by
  have ht0 : t ≠ 0 := ne_of_gt htpos
  have hur : dot m.upv m.right = 0 := (dot_comm _ _).trans hru
  have hrf : dot m.right m.forward = 0 := (dot_comm _ _).trans hfr
  have huf : dot m.upv m.forward = 0 := (dot_comm _ _).trans hfu
  constructor
  · simp [screenToWorld, ht]
  · have hv : m.pos + t • rayDir m p - m.pos = t • rayDir m p := add_sub_cancel_vec _ _
    have hdr : dot (t • rayDir m p) m.right =
        t * ((p.1 - m.halfW) / m.halfW * m.tanX) := by
      rw [dot_smul_left, rayDir, dot_add_left, dot_add_left, dot_smul_left,
        dot_smul_left, hfr, hrr, hur]
      ring
    have hdu : dot (t • rayDir m p) m.upv =
        t * ((m.halfH - p.2) / m.halfH * m.tanY) := by
      rw [dot_smul_left, rayDir, dot_add_left, dot_add_left, dot_smul_left,
        dot_smul_left, hfu, hru, huu]
      ring
    have hdf : dot (t • rayDir m p) m.forward = t := by
      rw [dot_smul_left, rayDir, dot_add_left, dot_add_left, dot_smul_left,
        dot_smul_left, hff, hrf, huf]
      ring
    obtain ⟨p1, p2⟩ := p
    simp only [worldToScreen, hv, hdr, hdu, hdf, Prod.mk.injEq]
    constructor
    · field_simp
      ring
    · field_simp
      ring

/-- C1 witness: the spec's concrete scenario — the screen center of the
sample camera unprojects through the planar surface at height 0 to the world
origin, and projects back exactly to the screen center. -/
theorem screenToWorld_worldToScreen_roundtrip_witness :
    screenToWorld sampleMapper planeSurface (256, 256) 0 = (some 0, some 0, some 0) ∧
    worldToScreen sampleMapper ⟨0, 0, 0⟩ = (256, 256) := by
  have h := screenToWorld_worldToScreen_roundtrip sampleMapper planeSurface
    (256, 256) 0 5 (by norm_num [dot, sampleMapper]) (by norm_num [dot, sampleMapper])
    (by norm_num [dot, sampleMapper]) (by norm_num [dot, sampleMapper])
    (by norm_num [dot, sampleMapper]) (by norm_num [dot, sampleMapper])
    (by norm_num [sampleMapper]) (by norm_num [sampleMapper])
    (by norm_num [sampleMapper]) (by norm_num [sampleMapper])
    (by norm_num [planeSurface, rayDir, sampleMapper, add_def, smul_def])
    (by norm_num)
  have hw : sampleMapper.pos + (5 : ℚ) • rayDir sampleMapper (256, 256) =
      ⟨0, 0, 0⟩ := by norm_num [sampleMapper, rayDir, add_def, smul_def]
  rw [hw] at h
  exact h

/-- C3: `screenToWorld` signals failure only by value, never by an
exception (the embedding below is a total function): its result has all
three components NaN (modelled as `none`) exactly when the screen ray does
not intersect the projection surface, and on a hit every component is a
real number. -/
theorem screenToWorld_nan_iff_miss
    (m : ScreenMapper) (surf : Surface) (p : ℚ × ℚ) (height : ℚ) :
    (screenToWorld m surf p height = (none, none, none) ↔
      surf height m.pos (rayDir m p) = none) ∧
    (∀ t, surf height m.pos (rayDir m p) = some t →
      screenToWorld m surf p height =
        (some (m.pos + t • rayDir m p).x, some (m.pos + t • rayDir m p).y,
         some (m.pos + t • rayDir m p).z)) := by
  constructor
  · cases h : surf height m.pos (rayDir m p) <;> simp [screenToWorld, h]
  · intro t ht
    simp [screenToWorld, ht]

/-- C3 witness: the sample camera looking at a pixel whose ray points away
from the plane (above the horizon) yields the all-NaN vector, and the
screen-center ray that hits yields finite components. -/
theorem screenToWorld_nan_iff_miss_witness :
    screenToWorld horizonMapper planeSurface (256, 128) 0 = (none, none, none) ∧
    screenToWorld sampleMapper planeSurface (256, 256) 0 =
      (some 0, some 0, some 0) := by
  constructor
  · exact (screenToWorld_nan_iff_miss horizonMapper planeSurface (256, 128) 0).1.mpr
      (by norm_num [planeSurface, rayDir, horizonMapper, add_def, smul_def])
  · have h := (screenToWorld_nan_iff_miss sampleMapper planeSurface (256, 256) 0).2
      5 (by norm_num [planeSurface, rayDir, sampleMapper, add_def, smul_def])
    have hw : sampleMapper.pos + (5 : ℚ) • rayDir sampleMapper (256, 256) =
        ⟨0, 0, 0⟩ := by norm_num [sampleMapper, rayDir, add_def, smul_def]
    rw [hw] at h
    exact h

/-! ## The ViewState facade

The private fields of `carto::ViewState` (ViewState.h lines 377-432) are
modelled by a Lean structure over exact rationals; the member functions,
whose bodies are in the translation unit missing from this source tree, are
modelled from the header's doc comments and spec.md. -/

/-- A 4×4 matrix of exact rationals, modelling `cglib::mat4x4<double>`
(`cglib::mat4x4<float>` is identified with it, the model being exact). -/
abbrev Mat4 := Matrix (Fin 4) (Fin 4) ℚ

/-- Modelled from the header (ViewState.h lines 28-31): a container for a
partial rotation matrix — two basis axes. -/
structure RotationState where
  xAxis : Vec3
  yAxis : Vec3

/-- Modelled from the spec (§3, §6): the read-only configuration snapshot
(`carto::Options`) consumed by every derived computation — zoom bounds, the
restricted-panning policy, pannable bounds, field of view, DPI, tile draw
size, and the pixel size of the pannable bounds at zoom 0. -/
structure Options where
  minZoom : ℚ
  maxZoom : ℚ
  restrictedPanning : Bool
  ignoreMinZoom : Bool
  panBoundsMin : Vec3
  panBoundsMax : Vec3
  fovY : ℚ
  dpi : ℚ
  tileDrawSize : ℚ
  boundsScreenSize : ℕ

/-- Modelled from the private field list of `carto::ViewState`
(ViewState.h lines 377-432).  The C++ field `_cameraChanged` is named
`cameraChangedFlag` to leave room for the member function
`cameraChanged()`. -/
structure ViewState where
  cameraPos : Vec3
  focusPos : Vec3
  upVec : Vec3
  cameraChangedFlag : Bool
  tilt : ℚ
  zoom : ℚ
  twoPowZoom : ℚ
  zoom0Distance : ℚ
  minZoom : ℚ
  normalizedResolution : ℚ
  width : ℕ
  height : ℕ
  halfWidth : ℚ
  halfHeight : ℚ
  aspectWH : ℚ
  screenSizeChanged : Bool
  near : ℚ
  far : ℚ
  skyVisible : Bool
  fovY : ℚ
  halfFOVY : ℚ
  dpToPX : ℚ
  dpi : ℚ
  unitToPXCoef : ℚ
  unitToDPCoef : ℚ
  rotationState : RotationState
  projectionMat : Mat4
  modelviewMat : Mat4
  modelviewProjectionMat : Mat4
  rteModelviewMat : Mat4
  rteModelviewProjectionMat : Mat4
  rteSkyProjectionMat : Mat4
  frustum : Fin 6 → Fin 4 → ℚ
  horizontalLayerOffsetDir : ℤ

/-- Modelled from the header doc of `setCameraPos` (ViewState.h lines 44-49):
stores the new camera position; changing it does not automatically update
the view (the changed flag is untouched — `cameraChanged()` must be
called). -/
def setCameraPos (s : ViewState) (v : Vec3) : ViewState := { s with cameraPos := v }

/-- Modelled from the header doc of `setFocusPos` (ViewState.h lines 56-61):
stores the new focus position without touching the changed flag. -/
def setFocusPos (s : ViewState) (v : Vec3) : ViewState := { s with focusPos := v }

/-- Modelled from the header doc of `setUpVec` (ViewState.h lines 68-73):
stores the new up vector without touching the changed flag. -/
def setUpVec (s : ViewState) (v : Vec3) : ViewState := { s with upVec := v }

/-- Modelled from the header doc of `setTilt` (ViewState.h lines 80-85):
stores the new tilt angle without touching the changed flag. -/
def setTilt (s : ViewState) (t : ℚ) : ViewState := { s with tilt := t }

/-- Modelled from the header doc of `setZoom` (ViewState.h lines 92-97):
stores the new zoom level without touching the changed flag. -/
def setZoom (s : ViewState) (z : ℚ) : ViewState := { s with zoom := z }

/-- Modelled from the header doc of `cameraChanged` (ViewState.h lines
104-108): sets the camera changed flag to true, so the view gets updated at
the beginning of the next frame. -/
def cameraChanged (s : ViewState) : ViewState := { s with cameraChangedFlag := true }

/-- Modelled from the header doc of `isCameraChanged` (ViewState.h lines
99-103). -/
def isCameraChanged (s : ViewState) : Bool := s.cameraChangedFlag

/-- Modelled from the header doc of `setScreenSize` (ViewState.h lines
298-303) and spec §7/§8: stores the screen size, clamping each dimension to
at least 1, and marks the screen size changed so the view is updated at the
beginning of the next frame. -/
def setScreenSize (s : ViewState) (w h : ℤ) : ViewState :=
  { s with width := (max 1 w).toNat, height := (max 1 h).toNat,
           screenSizeChanged := true }

/-- Clamp a rational into `[lo, hi]`. -/
def clampQ (lo hi x : ℚ) : ℚ := max lo (min hi x)

/-- Componentwise clamp of a vector into a box. -/
def clampVec (lo hi v : Vec3) : Vec3 :=
  ⟨clampQ lo.x hi.x v.x, clampQ lo.y hi.y v.y, clampQ lo.z hi.z v.z⟩

/-- A rational stand-in for `pow(2, zoom)` with a fractional zoom: exact on
integer zooms and piecewise linear in between (the exact float formula is
irrational; no verified claim depends on its values). -/
def twoPowQ (q : ℚ) : ℚ := 2 ^ ⌊q⌋ * (1 + (q - ⌊q⌋))

/-- A rational stand-in for the cotangent of a half field-of-view angle in
degrees (agrees with cot at 45°; the spec leaves the exact trigonometric
policy open, §9, and no verified claim depends on it). -/
def cotStand (a : ℚ) : ℚ := (90 - a) / a

/-- Modelled from the spec (§4.1): the smallest zoom level at which the
configured pannable bounds still fill the screen.  The bounds project to
`boundsScreenSize · 2^z` pixels at integer zoom `z`, so the smallest
sufficient zoom is the ceiling log of the screen size over the bounds size;
when restricted panning is disabled the configured minimum is returned
unchanged.  Only the screen dimensions of the state are read; in particular
the current camera zoom is not consulted. -/
def calculateMinZoom (options : Options) (s : ViewState) : ℚ :=
  if options.restrictedPanning then
    max options.minZoom
      ((Nat.clog 2 ((max s.width s.height + options.boundsScreenSize - 1) /
          options.boundsScreenSize) : ℕ) : ℚ)
  else options.minZoom

/-- Modelled from the spec (§4.1): the clamped zoom value — when restricted
panning is enabled the zoom is clamped to
`[max(options.minZoom, adjustedMinZoom), options.maxZoom]`, the lower bound
reducing to `options.minZoom` alone when the ignore-min-zoom flag is set;
otherwise the zoom is unchanged. -/
def clampZoomVal (options : Options) (minZoomAdj z : ℚ) : ℚ :=
  if options.restrictedPanning then
    clampQ (if options.ignoreMinZoom then options.minZoom
            else max options.minZoom minZoomAdj) options.maxZoom z
  else z

/-- Modelled from the spec (§4.1): the clamped focus position — when
restricted panning is enabled the focus position is projected to the closest
point of the configured pannable bounds; otherwise it is unchanged. -/
def clampFocusVal (options : Options) (fp : Vec3) : Vec3 :=
  if options.restrictedPanning then
    clampVec options.panBoundsMin options.panBoundsMax fp
  else fp

/-- Modelled from the header doc of `clampZoom` (ViewState.h lines 305-309):
the void member function clamps the stored zoom level in place if restricted
panning is used. -/
def clampZoom (s : ViewState) (options : Options) : ViewState :=
  { s with zoom := clampZoomVal options s.minZoom s.zoom }

/-- Modelled from the header doc of `clampFocusPos` (ViewState.h lines
310-314): the void member function clamps the stored focus point in place if
restricted panning is used. -/
def clampFocusPos (s : ViewState) (options : Options) : ViewState :=
  { s with focusPos := clampFocusVal options s.focusPos }

/-- Modelled from the spec (§4.3, stand-in constants per the open question of
§9): near is a fraction of the zoom-0 camera distance scaled by the current
zoom, far extends with tilt, and the sky becomes visible past a tilt
cutoff. -/
def calculateViewDistances (z0d z tilt : ℚ) : ℚ × ℚ × Bool :=
  let near := z0d / (16 * twoPowQ z)
  (near, near * (8 + tilt / 10), decide (60 ≤ tilt))

/-- Modelled from the spec (§4.2 `buildLookAt`): camera basis from forward =
focus − camera, right = forward × up (with a fallback up vector when the
two are parallel), up' = right × forward; the normalization of the basis is
not representable over ℚ and is omitted — no verified claim depends on
it. -/
def lookatMat (cam focus up : Vec3) : Mat4 :=
  let fwd := focus - cam
  let rgt := if cross fwd up = ⟨0, 0, 0⟩ then cross fwd ⟨0, 0, 1⟩ else cross fwd up
  let up2 := cross rgt fwd
  !![rgt.x, rgt.y, rgt.z, -(dot rgt cam);
     up2.x, up2.y, up2.z, -(dot up2 cam);
     -fwd.x, -fwd.y, -fwd.z, dot fwd cam;
     0, 0, 0, 1]

/-- Modelled from the spec (§4.2 `buildPerspective`): the standard symmetric
perspective projection from the half field of view, near/far planes and the
aspect of the screen. -/
def perspMat (halfFOVY near far aspct : ℚ) : Mat4 :=
  let c := cotStand halfFOVY
  !![c / aspct, 0, 0, 0;
     0, c, 0, 0;
     0, 0, -(far + near) / (far - near), -(2 * far * near) / (far - near);
     0, 0, -1, 0]

/-- Modelled from the header doc of `getRTEModelviewMat` (ViewState.h lines
264-269): the modelview matrix with the first three elements of the last
column set to 0 (the translation made relative to the eye). -/
def rteMat (m : Mat4) : Mat4 :=
  Matrix.of fun i j => if j = 3 ∧ i ≠ 3 then 0 else m i j

/-- Modelled from the spec (§4.3 `buildFrustum`): the six clip half-spaces
extracted from the composed modelview-projection matrix (row combinations of
the fourth row with each of the other rows). -/
def frustumPlanes (m : Mat4) : Fin 6 → Fin 4 → ℚ :=
  ![fun j => m 3 j + m 0 j, fun j => m 3 j - m 0 j,
    fun j => m 3 j + m 1 j, fun j => m 3 j - m 1 j,
    fun j => m 3 j + m 2 j, fun j => m 3 j - m 2 j]

/-- The unnormalized rotation basis of the camera (spec §3
RotationState). -/
def rotationStateOf (cam focus up : Vec3) : RotationState :=
  ⟨cross (focus - cam) up, cross (cross (focus - cam) up) (focus - cam)⟩

/-- Modelled from the spec (§3 lifecycle, §4.5) and the header doc of
`calculateViewState` (ViewState.h lines 328-333): the per-frame recompute.
It clamps zoom and focus first (computing the adjusted minimum zoom),
then rebuilds the derived scalars and all matrices from the clamped
parameters — the modelview-projection matrix is the product of the
projection and modelview matrices, computed once and reused by the frustum
— and finally clears the changed flags. -/
def calculateViewState (s : ViewState) (options : Options) : ViewState :=
  let halfW : ℚ := (s.width : ℚ) / 2
  let halfH : ℚ := (s.height : ℚ) / 2
  let aspct : ℚ := (s.width : ℚ) / (s.height : ℚ)
  let mz := calculateMinZoom options s
  let z := clampZoomVal options mz s.zoom
  let fp := clampFocusVal options s.focusPos
  let halfFOVY := options.fovY / 2
  let dpToPX := options.dpi / 160
  let z0d := (s.height : ℚ) * options.dpi / options.tileDrawSize
  let nfs := calculateViewDistances z0d z s.tilt
  let mv := lookatMat s.cameraPos fp s.upVec
  let pj := perspMat halfFOVY nfs.1 nfs.2.1 aspct
  let mvp := pj * mv
  let rteMv := rteMat mv
  { s with
    focusPos := fp, cameraChangedFlag := false, zoom := z,
    twoPowZoom := twoPowQ z, zoom0Distance := z0d, minZoom := mz,
    normalizedResolution := 2 * options.tileDrawSize * dpToPX,
    halfWidth := halfW, halfHeight := halfH, aspectWH := aspct,
    screenSizeChanged := false,
    near := nfs.1, far := nfs.2.1, skyVisible := nfs.2.2,
    fovY := options.fovY, halfFOVY := halfFOVY, dpToPX := dpToPX,
    dpi := options.dpi,
    unitToPXCoef := twoPowQ z * options.tileDrawSize,
    unitToDPCoef := twoPowQ z * options.tileDrawSize * dpToPX,
    rotationState := rotationStateOf s.cameraPos fp s.upVec,
    projectionMat := pj, modelviewMat := mv, modelviewProjectionMat := mvp,
    rteModelviewMat := rteMv,
    rteModelviewProjectionMat := pj * rteMv,
    rteSkyProjectionMat := perspMat halfFOVY nfs.1 (2 * nfs.2.1) aspct * rteMv,
    frustum := frustumPlanes mvp }

/-- Modelled from the spec (§4.5): a freshly constructed ViewState starts
uninitialized and dirty — it must be recomputed before first use. -/
def initialViewState : ViewState where
  cameraPos := ⟨0, 0, 1⟩
  focusPos := ⟨0, 0, 0⟩
  upVec := ⟨0, 1, 0⟩
  cameraChangedFlag := true
  tilt := 90
  zoom := 0
  twoPowZoom := 1
  zoom0Distance := 0
  minZoom := 0
  normalizedResolution := 0
  width := 1
  height := 1
  halfWidth := 0
  halfHeight := 0
  aspectWH := 1
  screenSizeChanged := true
  near := 0
  far := 0
  skyVisible := false
  fovY := 70
  halfFOVY := 35
  dpToPX := 1
  dpi := 160
  unitToPXCoef := 1
  unitToDPCoef := 1
  rotationState := ⟨⟨1, 0, 0⟩, ⟨0, 1, 0⟩⟩
  projectionMat := 1
  modelviewMat := 1
  modelviewProjectionMat := 1
  rteModelviewMat := 1
  rteModelviewProjectionMat := 1
  rteSkyProjectionMat := 1
  frustum := fun _ _ => 0
  horizontalLayerOffsetDir := 0

/-- Modelled from the spec (§4.4): the world-units-per-pixel estimate at the
focus point — the reciprocal of the unit-to-pixel coefficient of the last
recompute. -/
def estimateWorldPixelMeasure (s : ViewState) : ℚ := 1 / s.unitToPXCoef

/-- The camera frame a `ViewState` hands to the screen mapper. -/
def mapperOf (s : ViewState) : ScreenMapper :=
  ⟨s.cameraPos, s.rotationState.xAxis, s.rotationState.yAxis,
   s.focusPos - s.cameraPos, s.halfWidth, s.halfHeight, 1, 1⟩

/-- Modelled from the `const` qualifier of `screenToWorld` (ViewState.h line
342): the call observes the state and cannot modify it, so the state
component of the result is the input state. -/
def screenToWorldCall (s : ViewState) (surf : Surface) (p : ℚ × ℚ) (height : ℚ) :
    ViewState × (EDouble × EDouble × EDouble) :=
  (s, screenToWorld (mapperOf s) surf p height)

/-- Modelled from the `const` qualifier of `worldToScreen` (ViewState.h line
349). -/
def worldToScreenCall (s : ViewState) (w : Vec3) : ViewState × (ℚ × ℚ) :=
  (s, worldToScreen (mapperOf s) w)

/-- Modelled from the `const` qualifier of `estimateWorldPixelMeasure`
(ViewState.h line 354). -/
def estimateWorldPixelMeasureCall (s : ViewState) : ViewState × ℚ :=
  (s, estimateWorldPixelMeasure s)

/-! ## Sample configurations and states for concrete evaluations -/

/-- A configuration with restricted panning enabled: zoom range [1, 20],
pannable bounds a 20×20 box, bounds covering 256 screen pixels at zoom 0. -/
def optsRestricted : Options :=
  ⟨1, 20, true, false, ⟨-10, -10, 0⟩, ⟨10, 10, 0⟩, 70, 160, 256, 256⟩

/-- The same configuration with restricted panning disabled. -/
def optsFree : Options :=
  ⟨1, 20, false, false, ⟨-10, -10, 0⟩, ⟨10, 10, 0⟩, 70, 160, 256, 256⟩

/-- A state whose zoom (30) exceeds the configured maximum and whose stored
adjusted minimum zoom is 3. -/
def stateA : ViewState := { initialViewState with zoom := 30, minZoom := 3 }

/-- A clean state: all derived state notionally consistent, changed flags
down. -/
def cleanState : ViewState :=
  { initialViewState with cameraChangedFlag := false, screenSizeChanged := false }

/-! ## Helper lemmas -/

theorem clampQ_idem (lo hi x : ℚ) : clampQ lo hi (clampQ lo hi x) = clampQ lo hi x := by
  unfold clampQ
  rcases le_total hi x with h | h <;> rcases le_total lo x with h2 | h2 <;>
    rcases le_total lo hi with h3 | h3 <;>
    simp [min_def, max_def] <;> split_ifs <;> linarith

theorem clampVec_idem (lo hi v : Vec3) : clampVec lo hi (clampVec lo hi v) = clampVec lo hi v := by
  simp [clampVec, clampQ_idem]

theorem clampZoomVal_idem (options : Options) (m z : ℚ) :
    clampZoomVal options m (clampZoomVal options m z) = clampZoomVal options m z := by
  unfold clampZoomVal
  split_ifs <;> simp [clampQ_idem]

theorem clampFocusVal_idem (options : Options) (fp : Vec3) :
    clampFocusVal options (clampFocusVal options fp) = clampFocusVal options fp := by
  unfold clampFocusVal
  split_ifs <;> simp [clampVec_idem]

/-! ## Claims -/

/-- C2: after a recompute the modelview-projection matrix equals exactly the
product of the projection matrix and the modelview matrix; the RTE modelview
matrix is the modelview matrix with the first three elements of its last
column set to 0, and the RTE modelview-projection matrix equals the product
of the projection matrix with it — exactly in this model, where the float
rounding of the C++ cast is the identity. -/
theorem calculateViewState_matrix_consistency (s : ViewState) (options : Options) :
    (calculateViewState s options).modelviewProjectionMat =
      (calculateViewState s options).projectionMat *
        (calculateViewState s options).modelviewMat ∧
    (calculateViewState s options).rteModelviewMat =
      rteMat (calculateViewState s options).modelviewMat ∧
    (calculateViewState s options).rteModelviewMat 0 3 = 0 ∧
    (calculateViewState s options).rteModelviewMat 1 3 = 0 ∧
    (calculateViewState s options).rteModelviewMat 2 3 = 0 ∧
    (calculateViewState s options).rteModelviewMat 3 3 =
      (calculateViewState s options).modelviewMat 3 3 ∧
    (calculateViewState s options).rteModelviewProjectionMat =
      (calculateViewState s options).projectionMat *
        (calculateViewState s options).rteModelviewMat := by
  refine ⟨rfl, rfl, ?_, ?_, ?_, ?_, rfl⟩ <;> simp [calculateViewState, rteMat]

/-- C4: when restricted panning is enabled `clampZoom` leaves the zoom in
`[max(options.minZoom, adjustedMinZoom), options.maxZoom]` (the lower bound
coming from the configuration alone when the ignore-min-zoom flag is set),
provided the interval is nonempty as the validated configuration guarantees;
when restricted panning is disabled `clampZoom` is the identity. -/
theorem clampZoom_bounds (s : ViewState) (options : Options) :
    (options.restrictedPanning = true →
      (options.ignoreMinZoom = false →
        max options.minZoom s.minZoom ≤ options.maxZoom →
        max options.minZoom s.minZoom ≤ (clampZoom s options).zoom ∧
          (clampZoom s options).zoom ≤ options.maxZoom) ∧
      (options.ignoreMinZoom = true →
        options.minZoom ≤ options.maxZoom →
        options.minZoom ≤ (clampZoom s options).zoom ∧
          (clampZoom s options).zoom ≤ options.maxZoom)) ∧
    (options.restrictedPanning = false → clampZoom s options = s) := by
  constructor
  · intro hr
    constructor
    · intro hig hle
      have hz : (clampZoom s options).zoom =
          clampQ (max options.minZoom s.minZoom) options.maxZoom s.zoom := by
        simp [clampZoom, clampZoomVal, hr, hig]
      rw [hz]
      unfold clampQ
      exact ⟨le_max_left _ _, max_le hle (min_le_left _ _)⟩
    · intro hig hle
      have hz : (clampZoom s options).zoom =
          clampQ options.minZoom options.maxZoom s.zoom := by
        simp [clampZoom, clampZoomVal, hr, hig]
      rw [hz]
      unfold clampQ
      exact ⟨le_max_left _ _, max_le hle (min_le_left _ _)⟩
  · intro hr
    simp [clampZoom, clampZoomVal, hr]

/-- C4 witness: with restricted panning, zoom 30, stored minimum 3 and
range [1, 20], the clamped zoom lies in [3, 20]; with panning unrestricted
the state is untouched. -/
theorem clampZoom_bounds_witness :
    (max optsRestricted.minZoom stateA.minZoom ≤ (clampZoom stateA optsRestricted).zoom ∧
      (clampZoom stateA optsRestricted).zoom ≤ optsRestricted.maxZoom) ∧
    clampZoom stateA optsFree = stateA := by
  constructor
  · exact ((clampZoom_bounds stateA optsRestricted).1 rfl).1 rfl
      (by norm_num [optsRestricted, stateA, initialViewState])
  · exact (clampZoom_bounds stateA optsFree).2 rfl

/-- C5 counterexample: `clampZoom` is a void member function that clamps the
stored zoom in place — at a state with zoom 30 and configured maximum 20 it
changes the ViewState, so the operation does not leave the ViewState
unchanged. -/
theorem clampZoom_mutates_state :
    (clampZoom stateA optsRestricted).zoom ≠ stateA.zoom ∧
    clampZoom stateA optsRestricted ≠ stateA := by
  have h : (clampZoom stateA optsRestricted).zoom = 20 := by
    norm_num [clampZoom, clampZoomVal, clampQ, stateA, optsRestricted,
      initialViewState]
  have h2 : stateA.zoom = 30 := rfl
  constructor
  · rw [h, h2]; norm_num
  · intro he
    have hz := congrArg ViewState.zoom he
    rw [h, h2] at hz
    norm_num at hz

/-- C5 amended: `clampZoom` and `clampFocusPos` are deterministic state
transformers whose only effect is on the stored zoom (respectively focus
position): every other field of the ViewState, and the options, are left
unchanged.  They are not pure observers — an out-of-range zoom or focus is
modified in place. -/
theorem clamp_ops_frame (s : ViewState) (options : Options) :
    clampZoom s options = { s with zoom := (clampZoom s options).zoom } ∧
    clampFocusPos s options =
      { s with focusPos := (clampFocusPos s options).focusPos } :=
  ⟨rfl, rfl⟩

/-- C6: the computed minimum zoom is non-decreasing as the screen width or
height increases with everything else fixed, and it is independent of the
current camera zoom level — both at the level of `calculateMinZoom` itself
and through a full recompute as exposed by the stored `minZoom`
(`getMinZoom`). -/
theorem calculateMinZoom_monotone_zoom_independent :
    (∀ (options : Options) (s s' : ViewState),
      s.width ≤ s'.width → s.height ≤ s'.height →
      calculateMinZoom options s ≤ calculateMinZoom options s') ∧
    (∀ (options : Options) (s : ViewState) (z : ℚ),
      calculateMinZoom options (setZoom s z) = calculateMinZoom options s) ∧
    (∀ (options : Options) (s : ViewState) (z : ℚ),
      (calculateViewState (setZoom s z) options).minZoom =
        (calculateViewState s options).minZoom) := by
  refine ⟨?_, fun _ _ _ => rfl, fun _ _ _ => rfl⟩
  intro options s s' hw hh
  unfold calculateMinZoom
  split_ifs with hr
  · refine max_le_max le_rfl (Nat.cast_le.mpr (Nat.clog_mono_right _ ?_))
    refine Nat.div_le_div_right ?_
    have hm : max s.width s.height ≤ max s'.width s'.height := max_le_max hw hh
    omega
  · exact le_rfl

/-- C6 witness: growing the screen from 100×100 to 800×600 does not decrease
the computed minimum zoom. -/
theorem calculateMinZoom_monotone_witness :
    calculateMinZoom optsRestricted
        { initialViewState with width := 100, height := 100 } ≤
      calculateMinZoom optsRestricted
        { initialViewState with width := 800, height := 600 } :=
  calculateMinZoom_monotone_zoom_independent.1 optsRestricted
    { initialViewState with width := 100, height := 100 }
    { initialViewState with width := 800, height := 600 }
    (by norm_num) (by norm_num)

/-- C7: the recompute entry point is idempotent — running it twice with the
same options and no intervening mutation yields a state identical in every
field (matrices, frustum and scalars) to running it once. -/
theorem calculateViewState_idempotent (s : ViewState) (options : Options) :
    calculateViewState (calculateViewState s options) options =
      calculateViewState s options := by
  cases s
  simp [calculateViewState, calculateMinZoom, clampZoomVal_idem, clampFocusVal_idem]

/-- C8 counterexample: from a clean state, `setCameraPos` does not raise the
camera-changed flag — the header requires a separate `cameraChanged()` call
— so the claim that every pose setter moves clean to dirty fails at this
concrete input. -/
theorem setCameraPos_does_not_dirty :
    isCameraChanged cleanState = false ∧
    isCameraChanged (setCameraPos cleanState ⟨1, 2, 3⟩) = false :=
  ⟨rfl, rfl⟩

/-- C8 amended: a freshly constructed ViewState starts dirty;
`cameraChanged()` raises the camera-changed flag and `setScreenSize` raises
the screen-size-changed flag, while the pose setters (`setCameraPos`,
`setFocusPos`, `setUpVec`, `setTilt`, `setZoom`) store their value without
touching the changed flag (callers must invoke `cameraChanged()`);
`calculateViewState` clears both changed flags and runs clamping before
matrix construction and frustum construction from the final composed
matrix. -/
theorem dirty_flag_state_machine :
    isCameraChanged initialViewState = true ∧
    (∀ s, isCameraChanged (cameraChanged s) = true) ∧
    (∀ s (w h : ℤ), (setScreenSize s w h).screenSizeChanged = true) ∧
    (∀ s v, isCameraChanged (setCameraPos s v) = isCameraChanged s) ∧
    (∀ s v, isCameraChanged (setFocusPos s v) = isCameraChanged s) ∧
    (∀ s v, isCameraChanged (setUpVec s v) = isCameraChanged s) ∧
    (∀ s t, isCameraChanged (setTilt s t) = isCameraChanged s) ∧
    (∀ s z, isCameraChanged (setZoom s z) = isCameraChanged s) ∧
    (∀ s options, isCameraChanged (calculateViewState s options) = false) ∧
    (∀ s options, (calculateViewState s options).screenSizeChanged = false) ∧
    (∀ s options, (calculateViewState s options).zoom =
      clampZoomVal options ((calculateViewState s options).minZoom) s.zoom) ∧
    (∀ s options, (calculateViewState s options).modelviewMat =
      lookatMat s.cameraPos ((calculateViewState s options).focusPos) s.upVec) ∧
    (∀ s options, (calculateViewState s options).frustum =
      frustumPlanes ((calculateViewState s options).modelviewProjectionMat)) :=
  ⟨rfl, fun _ => rfl, fun _ _ _ => rfl, fun _ _ => rfl, fun _ _ => rfl,
   fun _ _ => rfl, fun _ _ => rfl, fun _ _ => rfl, fun _ _ => rfl,
   fun _ _ => rfl, fun _ _ => rfl, fun _ _ => rfl, fun _ _ => rfl⟩

/-- C9: setting the screen size to (800, 600) and recomputing yields an
aspect of exactly 800/600; setting the height to 0 clamps it internally to
1, so the recomputed aspect is the width over 1 and no division by zero (or
NaN) can occur — both dimensions stay at least 1 after any
`setScreenSize`. -/
theorem setScreenSize_aspect_safe (s : ViewState) (options : Options) :
    (calculateViewState (setScreenSize s 800 600) options).aspectWH = 800 / 600 ∧
    (∀ w : ℤ, (setScreenSize s w 0).height = 1) ∧
    (∀ w h : ℤ, 1 ≤ (setScreenSize s w h).height ∧ 1 ≤ (setScreenSize s w h).width) ∧
    (∀ w : ℤ, (calculateViewState (setScreenSize s w 0) options).aspectWH =
      ((setScreenSize s w 0).width : ℚ)) := by
  refine ⟨?_, fun w => ?_, fun w h => ⟨?_, ?_⟩, fun w => ?_⟩
  · simp [calculateViewState, setScreenSize]
  · simp [setScreenSize]
  · simp [setScreenSize]
  · simp [setScreenSize]
  · simp [calculateViewState, setScreenSize]

/-- C10: the query operations `screenToWorld`, `worldToScreen` and
`estimateWorldPixelMeasure` are declared `const` and cannot modify the
ViewState: the state after each call is the state before it, so every
observable getter (camera-changed flag included) is unchanged. -/
theorem query_ops_preserve_state (s : ViewState) (surf : Surface)
    (p : ℚ × ℚ) (height : ℚ) (w : Vec3) :
    (screenToWorldCall s surf p height).1 = s ∧
    (worldToScreenCall s w).1 = s ∧
    (estimateWorldPixelMeasureCall s).1 = s ∧
    isCameraChanged (screenToWorldCall s surf p height).1 = isCameraChanged s ∧
    (worldToScreenCall s w).1.zoom = s.zoom ∧
    (estimateWorldPixelMeasureCall s).1.frustum = s.frustum :=
  ⟨rfl, rfl, rfl, rfl, rfl, rfl⟩

end CartoViewState
